import Mathlib

/-!
Shallow embedding of the directory-scanning / stability-detection / job-dispatch
subsystem of `txrm-monitor.py` (classes `FileMonitorState` and `FileMonitor`).

Modelling conventions:
* Wall-clock time is a rational number of seconds (`time.time()` returns a
  float; the code only subtracts and compares times, which ℚ models exactly,
  including the fractional-second behaviour of `int()` truncation).
* Filesystem access (`os.path.isdir`, `os.walk`, `os.path.exists`,
  `os.path.getsize`) is a record of functions `FS` passed to each operation;
  `getsize` returns `none` where Python raises `OSError`.
* The dict `FileMonitor.monitored_files` is an association list keyed by file
  path.  Python dicts preserve insertion order and have unique keys, so
  `List.lookup` matches dict lookup and appending a fresh key matches
  insertion.
* Writing a sidecar file is modelled by returning the content that is written;
  the outcome of `xrmreader.read_metadata` and of the success-sidecar write
  are inputs to the job step (`JobEnv`).
* `logger` calls are elided.  The `status_message.emit` strings of
  `scan_directories` are returned alongside the store (they are observable).
* A background job thread is recorded as the path it was launched for; the
  completion of a job is a separate step applying `_process_file`'s final
  state assignment to the entry.
-/

/-- `STABILITY_DURATION = 10 * 60` seconds (txrm-monitor.py line 40). -/
def STABILITY_DURATION : ℚ := 10 * 60

/-- Python `int()` applied to a float: truncation toward zero. -/
def pyInt (q : ℚ) : ℤ :=
  if 0 ≤ q then ⌊q⌋ else ⌈q⌉

/-- State of one monitored .txrm file (class `FileMonitorState`). -/
structure FileMonitorState where
  filepath : String
  size : ℕ
  last_size_change : ℚ
  status : String
  is_processing : Bool
  is_completed : Bool
  error : Option String
deriving DecidableEq

/-- `FileMonitorState.__init__`: `size` comes from `os.path.getsize(filepath)`
(the possible `OSError` is handled at the creation site, inside the scan's
per-directory `try`), `last_size_change` from `time.time()`. -/
def FileMonitorState.init (filepath : String) (sz : ℕ) (now : ℚ) : FileMonitorState :=
  { filepath := filepath
    size := sz
    last_size_change := now
    status := "Waiting for changes"
    is_processing := false
    is_completed := false
    error := none }

/-- `FileMonitorState.update_size`: re-read the size (`readSize` is the result
of `os.path.getsize`, `none` on `OSError`); on a changed size store it and
reset `last_size_change`; returns the updated state and the Python return
value (`True` iff a size change was recorded). -/
def FileMonitorState.update_size (s : FileMonitorState) (readSize : Option ℕ)
    (now : ℚ) : FileMonitorState × Bool :=
  match readSize with
  | none => (s, false)
  | some current_size =>
    if current_size ≠ s.size then
      ({ s with size := current_size, last_size_change := now }, true)
    else
      (s, false)

/-- `FileMonitorState.is_stable`: `(time.time() - self.last_size_change) >=
STABILITY_DURATION`. -/
def FileMonitorState.is_stable (s : FileMonitorState) (now : ℚ) : Bool :=
  decide (STABILITY_DURATION ≤ now - s.last_size_change)

/-- `FileMonitorState.time_until_stable`: `max(0, int(STABILITY_DURATION -
(time.time() - self.last_size_change)))`. -/
def FileMonitorState.time_until_stable (s : FileMonitorState) (now : ℚ) : ℤ :=
  max 0 (pyInt (STABILITY_DURATION - (now - s.last_size_change)))

/-- The filesystem as seen by the monitor.  `walk d` yields the `os.walk`
output for root directory `d` as (root, filenames) pairs. -/
structure FS where
  isdir : String → Bool
  walk : String → List (String × List String)
  pathexists : String → Bool
  getsize : String → Option ℕ

/-- `os.path.join(root, filename)`. -/
def joinPath (root filename : String) : String :=
  root ++ "/" ++ filename

/-- Python `str.endswith`: the suffix's characters are a suffix of the
string's characters. -/
def endswith (s suffix : String) : Bool :=
  suffix.data.isSuffixOf s.data

/-- The inner file loop of `scan_directories` for one `os.walk` root
(txrm-monitor.py lines 154-169): for each filename ending in `.txrm` whose
`.txt` sidecar does not exist, add the joined path to `found` and create a
fresh entry if the path is not already tracked.  The returned Bool is `false`
when `os.path.getsize` raised inside `FileMonitorState.__init__`, which
aborts the surrounding per-directory `try` block. -/
def processRootFiles (fs : FS) (now : ℚ) (root : String) :
    List String → List String → List (String × FileMonitorState) →
    List String × List (String × FileMonitorState) × Bool
  | [], found, store => (found, store, true)
  | filename :: rest, found, store =>
    if endswith filename ".txrm" then
      let txrm_path := joinPath root filename
      let txt_path := txrm_path ++ ".txt"
      if fs.pathexists txt_path then
        processRootFiles fs now root rest found store
      else
        let found' := txrm_path :: found
        if (List.lookup txrm_path store).isSome then
          processRootFiles fs now root rest found' store
        else
          match fs.getsize txrm_path with
          | some sz =>
            processRootFiles fs now root rest found'
              (store ++ [(txrm_path, FileMonitorState.init txrm_path sz now)])
          | none => (found', store, false)
    else
      processRootFiles fs now root rest found store

/-- The `os.walk` loop of `scan_directories` over one configured directory
(lines 151-169): emits "Scanning: root" per root; an exception while
creating an entry aborts the remaining roots of this directory.  Returns
(messages, found, store). -/
def processWalkRoots (fs : FS) (now : ℚ) :
    List (String × List String) → List String → List (String × FileMonitorState) →
    List String × List String × List (String × FileMonitorState)
  | [], found, store => ([], found, store)
  | (root, files) :: rest, found, store =>
    let r := processRootFiles fs now root files found store
    if r.2.2 then
      let t := processWalkRoots fs now rest r.1 r.2.1
      (("Scanning: " ++ root) :: t.1, t.2.1, t.2.2)
    else
      (["Scanning: " ++ root], r.1, r.2.1)

/-- The per-configured-directory body of `scan_directories` (lines 142-171):
a missing directory is skipped (only a logger warning). -/
def scanOneDir (fs : FS) (now : ℚ) (d : String) (found : List String)
    (store : List (String × FileMonitorState)) :
    List String × List String × List (String × FileMonitorState) :=
  if fs.isdir d then
    let t := processWalkRoots fs now (fs.walk d) found store
    (("Scanning: " ++ d) :: t.1, t.2.1, t.2.2)
  else
    ([], found, store)

/-- Fold of `scanOneDir` over the configured directory list. -/
def scanDirsAll (fs : FS) (now : ℚ) :
    List String → List String → List (String × FileMonitorState) →
    List String × List String × List (String × FileMonitorState)
  | [], found, store => ([], found, store)
  | d :: rest, found, store =>
    let r := scanOneDir fs now d found store
    let t := scanDirsAll fs now rest r.2.1 r.2.2
    (r.1 ++ t.1, t.2.1, t.2.2)

/-- `FileMonitor.scan_directories` (lines 132-186): early return when no
directories are configured; otherwise walk every directory collecting
`found_files` and creating entries for new files, then remove every tracked
path not in `found_files`.  Returns the new store and the emitted
`status_message` strings. -/
def scan_directories (fs : FS) (now : ℚ) (directories : List String)
    (store : List (String × FileMonitorState)) :
    List (String × FileMonitorState) × List String :=
  if directories.isEmpty then
    (store, ["No directories configured"])
  else
    let t := scanDirsAll fs now directories [] store
    let store' := t.2.2.filter fun e => t.2.1.contains e.1
    (store',
      ("Scanning " ++ toString directories.length ++ " directories...") :: t.1 ++
        ["Scan complete. Monitoring " ++ toString store'.length ++ " files"])

/-- One entry's treatment inside `check_stability_and_process` (lines
196-221): skip `Processing`/terminal entries; otherwise update the size; on a
change set the countdown status; otherwise promote when stable (the returned
Bool records that a `_process_file` thread was launched) or refresh the
countdown status. -/
def tickEntry (fs : FS) (now : ℚ) (st : FileMonitorState) :
    FileMonitorState × Bool :=
  if st.is_processing || st.is_completed then
    (st, false)
  else
    match st.update_size (fs.getsize st.filepath) now with
    | (st1, true) =>
      ({ st1 with
          status := "Waiting for changes (" ++
            toString (st1.time_until_stable now) ++ "s)" }, false)
    | (st1, false) =>
      if st1.is_stable now then
        ({ st1 with is_processing := true, status := "Processing" }, true)
      else
        ({ st1 with
            status := "Waiting for changes (" ++
              toString (st1.time_until_stable now) ++ "s)" }, false)

/-- `FileMonitor.check_stability_and_process` over the whole store: every
entry is ticked; the second component lists the paths for which a background
job was launched, in store order. -/
def tickAll (fs : FS) (now : ℚ) :
    List (String × FileMonitorState) →
    List (String × FileMonitorState) × List String
  | [] => ([], [])
  | (p, st) :: rest =>
    let r := tickEntry fs now st
    let t := tickAll fs now rest
    ((p, r.1) :: t.1, (if r.2 then [p] else []) ++ t.2)

/-- The fixed field list of `_process_file` (lines 237-246). -/
def default_fields : List String :=
  ["image_width", "image_height", "data_type", "number_of_images",
   "pixel_size", "reference_exposure_time", "reference_current",
   "reference_voltage", "reference_data_type", "image_data_type",
   "align-mode", "center_shift", "rotation_angle",
   "source_isocenter_distance", "detector_isocenter_distance", "cone_angle",
   "fan_angle", "camera_offset", "source_drift", "current", "voltage",
   "power", "exposure_time", "binning", "filter",
   "scaling_min", "scaling_max", "objective_id", "objective_mag"]

/-- One `field: value` output line (`metadata.get(field, None)`). -/
def formatField (metadata : List (String × String)) (field : String) : String :=
  match List.lookup field metadata with
  | some v => field ++ ": " ++ v
  | none => field ++ ": Not found in metadata"

/-- The success-sidecar content built by `_process_file` (lines 248-262). -/
def successContent (filepath nowStr : String)
    (metadata : List (String × String)) : String :=
  String.intercalate "\n"
    (("Metadata extracted from: " ++ filepath) ::
      ("Extraction date: " ++ nowStr) :: "" ::
      default_fields.map (formatField metadata))

/-- The error-sidecar content written by `_process_file` (lines 271-275). -/
def errorContent (filepath nowStr e : String) : String :=
  "ERROR PROCESSING METADATA\n" ++ "Error: " ++ e ++ "\n" ++
    "File: " ++ filepath ++ "\n" ++ "Date: " ++ nowStr ++ "\n"

/-- Environment of one extraction job: the outcome of
`xrmreader.read_metadata(filepath)` (`Except.error` models a raised
exception, the list models the returned dict), the outcome of the
success-sidecar `open`/`write`, and `datetime.now()` rendered as a string. -/
structure JobEnv where
  extractResult : Except String (List (String × String))
  writeResult : Except String Unit
  nowStr : String

/-- The `try` body of `_process_file` (lines 227-262): an empty metadata dict
raises `Exception("Failed to read metadata")`; a write failure raises; on
success the formatted content is produced. -/
def process_file_body (filepath : String) (env : JobEnv) :
    Except String String :=
  match env.extractResult with
  | .error e => .error e
  | .ok metadata =>
    if metadata.isEmpty then
      .error "Failed to read metadata"
    else
      match env.writeResult with
      | .error e => .error e
      | .ok _ => .ok (successContent filepath env.nowStr metadata)

/-- `FileMonitor._process_file` (lines 223-283) as a state transformer:
returns the entry's final state and the sidecar content written at
`filepath ++ ".txt"`. -/
def process_file_update (s : FileMonitorState) (filepath : String)
    (env : JobEnv) : FileMonitorState × String :=
  match process_file_body filepath env with
  | .ok content =>
    ({ s with
        status := "Completed"
        is_completed := true
        is_processing := false }, content)
  | .error e =>
    ({ s with
        status := "Error"
        error := some e
        is_completed := true
        is_processing := false }, errorContent filepath env.nowStr e)

/-- Assignment `self.monitored_files[p] = v` for an existing key: replace the
binding in place (dict keys are unique, so the first match is the binding). -/
def replaceEntry : List (String × FileMonitorState) → String →
    FileMonitorState → List (String × FileMonitorState)
  | [], _, _ => []
  | (q, st) :: rest, p, v =>
    if q = p then (p, v) :: rest else (q, st) :: replaceEntry rest p v

/-- `FileMonitor.process_file_now` (lines 290-310), sequentially: returns the
Python return value, the updated store, and the paths for which a job thread
was launched. -/
def process_file_now (store : List (String × FileMonitorState))
    (filepath : String) :
    Bool × List (String × FileMonitorState) × List String :=
  match List.lookup filepath store with
  | none => (false, store, [])
  | some st =>
    if st.is_processing then
      (false, store, [])
    else if st.is_completed then
      (false, store, [])
    else
      (true,
        replaceEntry store filepath
          { st with is_processing := true, status := "Processing (forced)" },
        [filepath])

/-- The monitor's shared state: the tracked-entry store, the configured
directories, and the launched-but-not-yet-finished background jobs (by
path). -/
structure Monitor where
  monitored_files : List (String × FileMonitorState)
  directories : List String
  jobs : List String

/-- One system step: updating the directory list, a full directory scan, a
stability tick, a manual `process_file_now`, or the completion of a launched
`_process_file` job. -/
inductive Step where
  | setDirectories (ds : List String)
  | scan (fs : FS) (now : ℚ)
  | tick (fs : FS) (now : ℚ)
  | processNow (p : String)
  | jobComplete (p : String) (env : JobEnv)

/-- Completion of a `_process_file` job for path `p`: apply its final state
assignment to the entry at `p` (no-op when the entry is gone). -/
def completeJob (store : List (String × FileMonitorState)) (p : String)
    (env : JobEnv) : List (String × FileMonitorState) :=
  match List.lookup p store with
  | none => store
  | some st => replaceEntry store p (process_file_update st p env).1

/-- The effect of one step on the monitor. -/
def applyStep (m : Monitor) : Step → Monitor
  | .setDirectories ds => { m with directories := ds }
  | .scan fs now =>
    { m with monitored_files :=
        (scan_directories fs now m.directories m.monitored_files).1 }
  | .tick fs now =>
    let t := tickAll fs now m.monitored_files
    { m with monitored_files := t.1, jobs := m.jobs ++ t.2 }
  | .processNow p =>
    let t := process_file_now m.monitored_files p
    { m with monitored_files := t.2.1, jobs := m.jobs ++ t.2.2 }
  | .jobComplete p env =>
    if m.jobs.contains p then
      { m with
          monitored_files := completeJob m.monitored_files p env
          jobs := m.jobs.erase p }
    else
      m

/-- A sequence of steps, applied left to right. -/
def runSteps (m : Monitor) (steps : List Step) : Monitor :=
  steps.foldl applyStep m

/-- Position of an entry's state in the `Pending → Processing → terminal`
order. -/
def statusRank (s : FileMonitorState) : ℕ :=
  if s.is_completed then 2 else if s.is_processing then 1 else 0

/-- Micro-step model of two concurrent `process_file_now` calls on the same
tracked entry.  Program counters: 0 = about to run the lock-guarded checks
(lines 292-301); 1 = checks passed and the lock released, about to set
`is_processing`/`status` and start the worker thread (lines 304-310);
2 = returned `True` (job launched); 3 = returned `False`.  `jobs` counts the
`_process_file` threads started for this one path. -/
structure RaceState where
  st : FileMonitorState
  pc1 : ℕ
  pc2 : ℕ
  jobs : ℕ
deriving DecidableEq

/-- One micro-step of the indicated thread (`true` = thread 1). -/
def raceStep (rs : RaceState) (t : Bool) : RaceState :=
  let pc := if t then rs.pc1 else rs.pc2
  let setPc : RaceState → ℕ → RaceState := fun r n =>
    if t then { r with pc1 := n } else { r with pc2 := n }
  match pc with
  | 0 =>
    if rs.st.is_processing || rs.st.is_completed then
      setPc rs 3
    else
      setPc rs 1
  | 1 =>
    setPc
      { rs with
          st := { rs.st with is_processing := true, status := "Processing (forced)" }
          jobs := rs.jobs + 1 } 2
  | _ => rs

/-- Run a schedule of thread choices. -/
def runRace (rs : RaceState) (sched : List Bool) : RaceState :=
  sched.foldl raceStep rs

/-- A pending, quiescent-since-time-0 entry used as a concrete input. -/
def entry0 : FileMonitorState :=
  { filepath := "a.txrm"
    size := 100
    last_size_change := 0
    status := "Waiting for changes"
    is_processing := false
    is_completed := false
    error := none }

/-- A filesystem on which every size read returns the unchanged size 100. -/
def fsUnchanged : FS :=
  { isdir := fun _ => true
    walk := fun _ => []
    pathexists := fun _ => false
    getsize := fun _ => some 100 }

/-- A filesystem on which every size read fails (file deleted). -/
def fsGone : FS :=
  { isdir := fun _ => true
    walk := fun _ => []
    pathexists := fun _ => false
    getsize := fun _ => none }

/-- A monitor tracking only `entry0`. -/
def monitor0 : Monitor :=
  { monitored_files := [("a.txrm", entry0)]
    directories := []
    jobs := [] }

/-- A filesystem on which every size read returns 50 (differing from
`entry0`'s stored size 100). -/
def fsChanged : FS :=
  { isdir := fun _ => true
    walk := fun _ => []
    pathexists := fun _ => false
    getsize := fun _ => some 50 }

/-- A job environment whose extraction raises an exception "boom". -/
def envBoom : JobEnv :=
  { extractResult := .error "boom"
    writeResult := .ok ()
    nowStr := "2026-02-03 04:05:06" }

/-- A directory `d` holding a tracked file `a.txrm`, a new file `b.txrm` and
an unrelated `notes.doc`; no sidecars exist and every size read returns 42. -/
def fsW : FS :=
  { isdir := fun _ => true
    walk := fun d => [(d, ["a.txrm", "b.txrm", "notes.doc"])]
    pathexists := fun _ => false
    getsize := fun _ => some 42 }

/-- An already-tracked entry for `d/a.txrm`. -/
def entryW : FileMonitorState :=
  { filepath := "d/a.txrm"
    size := 7
    last_size_change := 3
    status := "Waiting for changes"
    is_processing := false
    is_completed := false
    error := none }

/-- A store tracking only `d/a.txrm`. -/
def storeW : List (String × FileMonitorState) := [("d/a.txrm", entryW)]

/-- Relation between a store and the store produced from it by (part of) a
scan: existing bindings are preserved verbatim, every other binding is a
freshly created `FileMonitorState.init` for a path that was not tracked, and
key uniqueness is preserved. -/
def StoreExtends (fs : FS) (now : ℚ)
    (s t : List (String × FileMonitorState)) : Prop :=
  (∀ p, (List.lookup p s).isSome = true → List.lookup p t = List.lookup p s) ∧
  (∀ p st', List.lookup p t = some st' →
    List.lookup p s = some st' ∨
      (List.lookup p s = none ∧
        ∃ sz, fs.getsize p = some sz ∧ st' = FileMonitorState.init p sz now)) ∧
  ((s.map Prod.fst).Nodup → (t.map Prod.fst).Nodup)

lemma STABILITY_DURATION_eq : STABILITY_DURATION = 600 := by
  norm_num [STABILITY_DURATION]

lemma update_size_none (s : FileMonitorState) (now : ℚ) :
    s.update_size none now = (s, false) := rfl

lemma update_size_same (s : FileMonitorState) (now : ℚ) :
    s.update_size (some s.size) now = (s, false) := by
  simp [FileMonitorState.update_size]

lemma update_size_changed (s : FileMonitorState) (now : ℚ) (n : ℕ) (h : n ≠ s.size) :
    s.update_size (some n) now = ({ s with size := n, last_size_change := now }, true) := by
  simp [FileMonitorState.update_size, h]

lemma is_stable_true_iff (s : FileMonitorState) (now : ℚ) :
    s.is_stable now = true ↔ STABILITY_DURATION ≤ now - s.last_size_change := by
  simp [FileMonitorState.is_stable]

lemma is_stable_false_iff (s : FileMonitorState) (now : ℚ) :
    s.is_stable now = false ↔ ¬ STABILITY_DURATION ≤ now - s.last_size_change := by
  simp [FileMonitorState.is_stable]

lemma tickEntry_unchanged (fs : FS) (now : ℚ) (st : FileMonitorState)
    (hp : st.is_processing = false) (hc : st.is_completed = false)
    (hsz : fs.getsize st.filepath = some st.size) :
    tickEntry fs now st =
      if st.is_stable now then
        ({ st with is_processing := true, status := "Processing" }, true)
      else
        ({ st with status := "Waiting for changes (" ++
            toString (st.time_until_stable now) ++ "s)" }, false) := by
  simp [tickEntry, hp, hc, hsz, update_size_same]

lemma tickEntry_gone (fs : FS) (now : ℚ) (st : FileMonitorState)
    (hp : st.is_processing = false) (hc : st.is_completed = false)
    (hsz : fs.getsize st.filepath = none) :
    tickEntry fs now st =
      if st.is_stable now then
        ({ st with is_processing := true, status := "Processing" }, true)
      else
        ({ st with status := "Waiting for changes (" ++
            toString (st.time_until_stable now) ++ "s)" }, false) := by
  simp [tickEntry, hp, hc, hsz, update_size_none]

lemma tickEntry_changed (fs : FS) (now : ℚ) (st : FileMonitorState) (n : ℕ)
    (hp : st.is_processing = false) (hc : st.is_completed = false)
    (hsz : fs.getsize st.filepath = some n) (hne : n ≠ st.size) :
    tickEntry fs now st =
      ({ st with
          size := n
          last_size_change := now
          status := "Waiting for changes (" ++
            toString (FileMonitorState.time_until_stable
              { st with size := n, last_size_change := now } now) ++ "s)" },
        false) := by
  simp [tickEntry, hp, hc, hsz, update_size_changed _ _ _ hne]

/-- C3: a `Pending` entry whose size last changed at time `T` and whose size
read returns the stored size is not promoted by a tick at
`T + STABILITY_DURATION - 1`, and is promoted (job launched,
`is_processing` set) by a tick at any time `≥ T + STABILITY_DURATION`. -/
theorem C3_stability_threshold (fs : FS) (st : FileMonitorState) (T : ℚ)
    (hp : st.is_processing = false) (hc : st.is_completed = false)
    (hT : st.last_size_change = T)
    (hsz : fs.getsize st.filepath = some st.size) :
    (tickEntry fs (T + STABILITY_DURATION - 1) st).2 = false ∧
    ∀ now, T + STABILITY_DURATION ≤ now →
      (tickEntry fs now st).2 = true ∧
      (tickEntry fs now st).1.is_processing = true ∧
      (tickEntry fs now st).1.status = "Processing" := by
  constructor
  · have h599 : st.is_stable (T + STABILITY_DURATION - 1) = false := by
      rw [is_stable_false_iff, hT]
      intro h
      linarith
    simp [tickEntry_unchanged fs _ st hp hc hsz, h599]
  · intro now hnow
    have hs : st.is_stable now = true := by
      rw [is_stable_true_iff, hT]
      linarith
    simp [tickEntry_unchanged fs now st hp hc hsz, hs]

/-- Witness for C3 at `entry0` (last change at time 0, size unchanged). -/
theorem C3_stability_threshold_witness :
    (tickEntry fsUnchanged (0 + STABILITY_DURATION - 1) entry0).2 = false ∧
    (tickEntry fsUnchanged 600 entry0).2 = true ∧
    (tickEntry fsUnchanged 600 entry0).1.is_processing = true := by
  have h := C3_stability_threshold fsUnchanged entry0 0 rfl rfl rfl rfl
  have h2 := h.2 600 (by simp [STABILITY_DURATION_eq])
  exact ⟨h.1, h2.1, h2.2.1⟩

/-- C4 counterexample: `entry0` is `Pending`, quiescent since time 0, and the
size read fails at time 600; the claim says such a tick performs no promotion,
but the tick promotes the entry and launches a job (`update_size` returns
`False` on `OSError`, which the caller cannot tell apart from "size
unchanged", so the stability check still runs). -/
theorem C4_sizefail_counterexample :
    fsGone.getsize entry0.filepath = none ∧
    entry0.is_processing = false ∧ entry0.is_completed = false ∧
    (tickEntry fsGone 600 entry0).2 = true ∧
    (tickEntry fsGone 600 entry0).1.is_processing = true := by
  have hs : entry0.is_stable 600 = true := by
    rw [is_stable_true_iff, STABILITY_DURATION_eq]
    norm_num [entry0]
  refine ⟨rfl, rfl, rfl, ?_, ?_⟩ <;>
    simp [tickEntry_gone fsGone 600 entry0 rfl rfl rfl, hs]

/-- C4 (amended): when the size read fails during a tick, the entry's `size`
and `last_size_change` are left unchanged and the entry stays tracked, but
the tick still evaluates stability on the stale data: an already-stable entry
is promoted (a job is launched on the vanished file), and an unstable entry
merely gets a refreshed countdown status. -/
theorem C4_sizefail_amended (fs : FS) (now : ℚ) (st : FileMonitorState)
    (hp : st.is_processing = false) (hc : st.is_completed = false)
    (hsz : fs.getsize st.filepath = none) :
    (tickEntry fs now st).1.size = st.size ∧
    (tickEntry fs now st).1.last_size_change = st.last_size_change ∧
    (tickEntry fs now st).2 = st.is_stable now ∧
    (st.is_stable now = false →
      (tickEntry fs now st).1.is_processing = false ∧
      (tickEntry fs now st).1.is_completed = false) ∧
    (st.is_stable now = true →
      (tickEntry fs now st).1 =
        { st with is_processing := true, status := "Processing" }) := by
  rw [tickEntry_gone fs now st hp hc hsz]
  cases h : st.is_stable now <;> simp [h, hp, hc]

/-- Witness for the amended C4 at `entry0` with a failed size read at time
600 (the stable case: the entry is promoted anyway). -/
theorem C4_sizefail_amended_witness :
    (tickEntry fsGone 600 entry0).1.size = entry0.size ∧
    (tickEntry fsGone 600 entry0).1.last_size_change = entry0.last_size_change ∧
    (tickEntry fsGone 600 entry0).2 = entry0.is_stable 600 ∧
    (tickEntry fsGone 600 entry0).1 =
      { entry0 with is_processing := true, status := "Processing" } := by
  have h := C4_sizefail_amended fsGone 600 entry0 rfl rfl rfl
  have hs : entry0.is_stable 600 = true := by
    rw [is_stable_true_iff, STABILITY_DURATION_eq]
    norm_num [entry0]
  exact ⟨h.1, h.2.1, h.2.2.1, h.2.2.2.2 hs⟩

lemma tickEntry_launch_iff (fs : FS) (now : ℚ) (st : FileMonitorState)
    (hp : st.is_processing = false) (hc : st.is_completed = false)
    (hsz : fs.getsize st.filepath = some st.size) :
    (tickEntry fs now st).2 = true ↔
      STABILITY_DURATION ≤ now - st.last_size_change := by
  rw [tickEntry_unchanged fs now st hp hc hsz]
  cases h : st.is_stable now
  · rw [is_stable_false_iff] at h
    simp [h]
  · rw [is_stable_true_iff] at h
    simp [h]

/-- C5: an observed size change updates `size`, resets `last_size_change` to
`now`, keeps the entry `Pending` (no promotion this tick), and a later tick
with unchanged size promotes the entry exactly when a full new
`STABILITY_DURATION` has elapsed since `now`. -/
theorem C5_reset_clock (fs : FS) (now : ℚ) (st : FileMonitorState) (n : ℕ)
    (hp : st.is_processing = false) (hc : st.is_completed = false)
    (hsz : fs.getsize st.filepath = some n) (hne : n ≠ st.size) :
    (tickEntry fs now st).1.size = n ∧
    (tickEntry fs now st).1.last_size_change = now ∧
    (tickEntry fs now st).1.is_processing = false ∧
    (tickEntry fs now st).1.is_completed = false ∧
    (tickEntry fs now st).2 = false ∧
    ∀ (fs' : FS) (now' : ℚ), fs'.getsize st.filepath = some n →
      ((tickEntry fs' now' (tickEntry fs now st).1).2 = true ↔
        STABILITY_DURATION ≤ now' - now) := by
  rw [tickEntry_changed fs now st n hp hc hsz hne]
  refine ⟨rfl, rfl, hp, hc, rfl, ?_⟩
  intro fs' now' hsz'
  exact tickEntry_launch_iff fs' now' _ hp hc hsz'

/-- Witness for C5: `entry0` (size 100) reads size 50 at time 599; the clock
resets, and a tick at time 1199 (a full `STABILITY_DURATION` after the reset,
with size unchanged at 50) promotes the entry. -/
theorem C5_reset_clock_witness :
    (tickEntry fsChanged 599 entry0).1.size = 50 ∧
    (tickEntry fsChanged 599 entry0).1.last_size_change = 599 ∧
    (tickEntry fsChanged 599 entry0).1.is_processing = false ∧
    (tickEntry fsChanged 599 entry0).1.is_completed = false ∧
    (tickEntry fsChanged 599 entry0).2 = false ∧
    (tickEntry fsChanged 1199 (tickEntry fsChanged 599 entry0).1).2 = true := by
  have h := C5_reset_clock fsChanged 599 entry0 50 rfl rfl rfl (by decide)
  refine ⟨h.1, h.2.1, h.2.2.1, h.2.2.2.1, h.2.2.2.2.1, ?_⟩
  exact (h.2.2.2.2.2 fsChanged 1199 rfl).mpr
    (by rw [STABILITY_DURATION_eq]; norm_num)

/-- C9: a scan with an empty configured directory list emits exactly the
"No directories configured" message and returns the store unchanged — the
removal diff is never executed, so previously tracked entries all remain. -/
theorem C9_empty_directories_noop (fs : FS) (now : ℚ)
    (store : List (String × FileMonitorState)) :
    scan_directories fs now [] store = (store, ["No directories configured"]) := by
  simp [scan_directories]

/-- C10: `is_stable` implies a zero `time_until_stable` countdown, but not
conversely: there is an elapsed time strictly between
`STABILITY_DURATION - 1` and `STABILITY_DURATION` whose sub-second remainder
truncates to a zero countdown while `is_stable` is still false. -/
theorem C10_zero_countdown_not_stable :
    (∀ (st : FileMonitorState) (now : ℚ), st.is_stable now = true →
      st.time_until_stable now = 0) ∧
    (∃ (st : FileMonitorState) (now : ℚ),
      STABILITY_DURATION - 1 < now - st.last_size_change ∧
      now - st.last_size_change < STABILITY_DURATION ∧
      st.time_until_stable now = 0 ∧
      st.is_stable now = false) := by
  constructor
  · intro st now h
    rw [is_stable_true_iff] at h
    have hq : STABILITY_DURATION - (now - st.last_size_change) ≤ 0 := by linarith
    unfold FileMonitorState.time_until_stable pyInt
    split_ifs with h0
    · have hz : STABILITY_DURATION - (now - st.last_size_change) = 0 :=
        le_antisymm hq h0
      rw [hz]
      simp
    · have hc : (⌈STABILITY_DURATION - (now - st.last_size_change)⌉ : ℤ) ≤ 0 := by
        rw [Int.ceil_le]
        exact_mod_cast hq
      exact max_eq_left hc
  · refine ⟨entry0, 1199/2, ?_, ?_, ?_, ?_⟩
    · rw [STABILITY_DURATION_eq]
      norm_num [entry0]
    · rw [STABILITY_DURATION_eq]
      norm_num [entry0]
    · unfold FileMonitorState.time_until_stable pyInt
      have h1 : STABILITY_DURATION - ((1199/2 : ℚ) - entry0.last_size_change) = 1/2 := by
        rw [STABILITY_DURATION_eq]
        norm_num [entry0]
      rw [h1, if_pos (by norm_num)]
      have h2 : (⌊(1/2 : ℚ)⌋ : ℤ) = 0 := by
        refine Int.floor_eq_iff.mpr ?_
        norm_num
      rw [h2]
      simp
    · rw [is_stable_false_iff, STABILITY_DURATION_eq]
      norm_num [entry0]

/-- Witness for the universally quantified half of C10: `entry0` is stable at
time 600 and its countdown is 0. -/
theorem C10_zero_countdown_not_stable_witness :
    FileMonitorState.time_until_stable entry0 600 = 0 := by
  have hs : entry0.is_stable 600 = true := by
    rw [is_stable_true_iff, STABILITY_DURATION_eq]
    norm_num [entry0]
  exact C10_zero_countdown_not_stable.1 entry0 600 hs

/-- C1: the claimed lock-protected atomic read-and-set does not exist in the
code — in `process_file_now` the `is_processing`/`is_completed` checks run
under the lock but `is_processing := True` is written after the lock is
released, so two concurrent calls on the same `Pending` entry interleaved
check / check / set / set both pass the checks, both return `True`, and
launch two `_process_file` jobs for the one path. -/
theorem C1_racing_promotions_both_launch :
    runRace { st := entry0, pc1 := 0, pc2 := 0, jobs := 0 }
      [true, false, true, false] =
      { st := { entry0 with is_processing := true, status := "Processing (forced)" }
        pc1 := 2
        pc2 := 2
        jobs := 2 } := by
  rfl

/-- C6: whenever extraction raises, returns an empty mapping, or the
success-sidecar write raises, `_process_file` writes the error sidecar with
the literal `ERROR PROCESSING METADATA` header, the error description, the
source path and the timestamp, and leaves the entry terminal (`Errored`) with
its `error` field set. -/
theorem C6_error_sidecar (s : FileMonitorState) (fp : String) (env : JobEnv)
    (e : String)
    (h : env.extractResult = .error e ∨
      (env.extractResult = .ok [] ∧ e = "Failed to read metadata") ∨
      (∃ md, md ≠ [] ∧ env.extractResult = .ok md ∧ env.writeResult = .error e)) :
    process_file_update s fp env =
      ({ s with status := "Error", error := some e, is_completed := true, is_processing := false },
        "ERROR PROCESSING METADATA\n" ++ "Error: " ++ e ++ "\n" ++
          "File: " ++ fp ++ "\n" ++ "Date: " ++ env.nowStr ++ "\n") := by
  rcases h with h | ⟨h, he⟩ | ⟨md, hmd, hok, hw⟩
  · simp [process_file_update, process_file_body, errorContent, h]
  · subst he
    simp [process_file_update, process_file_body, errorContent, h]
  · cases md with
    | nil => exact absurd rfl hmd
    | cons a t =>
      simp [process_file_update, process_file_body, errorContent, hok, hw]

/-- Witness for C6: extraction raising "boom" yields the Errored terminal
state and the error sidecar content. -/
theorem C6_error_sidecar_witness :
    process_file_update entry0 "a.txrm" envBoom =
      ({ entry0 with status := "Error", error := some "boom", is_completed := true, is_processing := false },
        "ERROR PROCESSING METADATA\n" ++ "Error: " ++ "boom" ++ "\n" ++
          "File: " ++ "a.txrm" ++ "\n" ++ "Date: " ++ envBoom.nowStr ++ "\n") :=
  C6_error_sidecar entry0 "a.txrm" envBoom "boom" (Or.inl rfl)

/-- C8: `process_file_now` on an untracked path returns `False` and changes
nothing: the store is returned unchanged, no job is launched, and at the
monitor level the step is the identity. -/
theorem C8_processNow_untracked (m : Monitor) (p : String)
    (h : List.lookup p m.monitored_files = none) :
    process_file_now m.monitored_files p = (false, m.monitored_files, []) ∧
    applyStep m (Step.processNow p) = m := by
  have h1 : process_file_now m.monitored_files p = (false, m.monitored_files, []) := by
    simp [process_file_now, h]
  refine ⟨h1, ?_⟩
  simp [applyStep, h1]

/-- Witness for C8: the untracked path "zzz" on `monitor0`. -/
theorem C8_processNow_untracked_witness :
    process_file_now monitor0.monitored_files "zzz" =
      (false, monitor0.monitored_files, []) ∧
    applyStep monitor0 (Step.processNow "zzz") = monitor0 :=
  C8_processNow_untracked monitor0 "zzz" rfl

lemma storeExtends_refl (fs : FS) (now : ℚ)
    (s : List (String × FileMonitorState)) : StoreExtends fs now s s :=
  ⟨fun _ _ => rfl, fun _ _ h => Or.inl h, id⟩

lemma storeExtends_trans {fs : FS} {now : ℚ}
    {s t u : List (String × FileMonitorState)}
    (h1 : StoreExtends fs now s t) (h2 : StoreExtends fs now t u) :
    StoreExtends fs now s u := by
  obtain ⟨a1, b1, c1⟩ := h1
  obtain ⟨a2, b2, c2⟩ := h2
  refine ⟨?_, ?_, fun h => c2 (c1 h)⟩
  · intro p hp
    have ht : List.lookup p t = List.lookup p s := a1 p hp
    have htS : (List.lookup p t).isSome = true := by rw [ht]; exact hp
    rw [a2 p htS, ht]
  · intro p st' hu
    rcases b2 p st' hu with h | ⟨hnone, rest⟩
    · exact b1 p st' h
    · have hs : List.lookup p s = none := by
        cases hcase : List.lookup p s with
        | none => rfl
        | some v =>
          have hv : List.lookup p t = List.lookup p s := a1 p (by rw [hcase]; rfl)
          rw [hnone, hcase] at hv
          exact absurd hv (by simp)
      exact Or.inr ⟨hs, rest⟩

lemma lookup_singleton (p f : String) (v : FileMonitorState) :
    List.lookup p [(f, v)] = if p = f then some v else none := by
  by_cases h : p = f
  · subst h
    simp
  · have hbeq : (p == f) = false := beq_eq_false_iff_ne.mpr h
    simp [List.lookup_cons, hbeq, h]

lemma lookup_none_not_mem_keys {s : List (String × FileMonitorState)}
    {f : String} (h : List.lookup f s = none) : f ∉ s.map Prod.fst := by
  intro hmem
  obtain ⟨pr, hpr, hfst⟩ := List.mem_map.mp hmem
  have := List.lookup_eq_none_iff.mp h pr hpr
  rw [hfst] at this
  simp at this

lemma storeExtends_push (fs : FS) (now : ℚ)
    (s : List (String × FileMonitorState)) (f : String) (sz : ℕ)
    (hnone : List.lookup f s = none) (hsz : fs.getsize f = some sz) :
    StoreExtends fs now s (s ++ [(f, FileMonitorState.init f sz now)]) := by
  refine ⟨?_, ?_, ?_⟩
  · intro p hp
    obtain ⟨v, hv⟩ := Option.isSome_iff_exists.mp hp
    rw [List.lookup_append, hv]
    rfl
  · intro p st' ht
    rw [List.lookup_append] at ht
    cases hcase : List.lookup p s with
    | some v =>
      rw [hcase] at ht
      have hvv : some v = some st' := ht
      exact Or.inl hvv
    | none =>
      rw [hcase, Option.none_or] at ht
      rw [lookup_singleton] at ht
      by_cases hpf : p = f
      · subst hpf
        rw [if_pos rfl] at ht
        exact Or.inr ⟨rfl, sz, hsz, (Option.some.inj ht).symm⟩
      · rw [if_neg hpf] at ht
        exact absurd ht (by simp)
  · intro hnd
    rw [List.map_append]
    simp only [List.map_cons, List.map_nil]
    rw [List.nodup_append]
    refine ⟨hnd, List.nodup_singleton _, ?_⟩
    intro a ha haf
    rw [List.mem_singleton] at haf
    subst haf
    exact lookup_none_not_mem_keys hnone ha

lemma processRootFiles_extends (fs : FS) (now : ℚ) (root : String)
    (files : List String) :
    ∀ (found : List String) (store : List (String × FileMonitorState)),
      StoreExtends fs now store (processRootFiles fs now root files found store).2.1 := by
  induction files with
  | nil =>
    intro found store
    exact storeExtends_refl fs now store
  | cons filename rest ih =>
    intro found store
    by_cases he : endswith filename ".txrm"
    · by_cases hex : fs.pathexists (joinPath root filename ++ ".txt")
      · simpa [processRootFiles, he, hex] using ih found store
      · cases hl : (List.lookup (joinPath root filename) store).isSome
        · cases hg : fs.getsize (joinPath root filename) with
          | some sz =>
            have hnone : List.lookup (joinPath root filename) store = none :=
              Option.not_isSome_iff_eq_none.mp (by rw [hl]; simp)
            have hpush := storeExtends_push fs now store (joinPath root filename) sz hnone hg
            have hrec := ih (joinPath root filename :: found)
              (store ++ [(joinPath root filename, FileMonitorState.init (joinPath root filename) sz now)])
            simpa [processRootFiles, he, hex, hl, hg] using storeExtends_trans hpush hrec
          | none =>
            simpa [processRootFiles, he, hex, hl, hg] using storeExtends_refl fs now store
        · simpa [processRootFiles, he, hex, hl] using ih (joinPath root filename :: found) store
    · simpa [processRootFiles, he] using ih found store

lemma processWalkRoots_extends (fs : FS) (now : ℚ)
    (roots : List (String × List String)) :
    ∀ (found : List String) (store : List (String × FileMonitorState)),
      StoreExtends fs now store (processWalkRoots fs now roots found store).2.2 := by
  induction roots with
  | nil =>
    intro found store
    exact storeExtends_refl fs now store
  | cons rootfiles rest ih =>
    intro found store
    obtain ⟨root, files⟩ := rootfiles
    have h1 := processRootFiles_extends fs now root files found store
    cases hab : (processRootFiles fs now root files found store).2.2
    · simpa [processWalkRoots, hab] using h1
    · have h2 := ih (processRootFiles fs now root files found store).1
        (processRootFiles fs now root files found store).2.1
      simpa [processWalkRoots, hab] using storeExtends_trans h1 h2

lemma scanOneDir_extends (fs : FS) (now : ℚ) (d : String)
    (found : List String) (store : List (String × FileMonitorState)) :
    StoreExtends fs now store (scanOneDir fs now d found store).2.2 := by
  by_cases hd : fs.isdir d
  · simpa [scanOneDir, hd] using processWalkRoots_extends fs now (fs.walk d) found store
  · simpa [scanOneDir, hd] using storeExtends_refl fs now store

lemma scanDirsAll_extends (fs : FS) (now : ℚ) (dirs : List String) :
    ∀ (found : List String) (store : List (String × FileMonitorState)),
      StoreExtends fs now store (scanDirsAll fs now dirs found store).2.2 := by
  induction dirs with
  | nil =>
    intro found store
    exact storeExtends_refl fs now store
  | cons d rest ih =>
    intro found store
    have h1 := scanOneDir_extends fs now d found store
    have h2 := ih (scanOneDir fs now d found store).2.1 (scanOneDir fs now d found store).2.2
    simpa [scanDirsAll] using storeExtends_trans h1 h2

lemma lookup_filter_key (pred : String → Bool)
    (l : List (String × FileMonitorState)) (p : String) :
    List.lookup p (l.filter fun e => pred e.1) =
      if pred p then List.lookup p l else none := by
  induction l with
  | nil => simp
  | cons kv rest ih =>
    obtain ⟨k, v⟩ := kv
    by_cases hpk : p = k
    · subst hpk
      cases hpred : pred p <;>
        simp [List.filter_cons, hpred, List.lookup_cons, ih]
    · have hbeq : (p == k) = false := beq_eq_false_iff_ne.mpr hpk
      cases hpred : pred k <;>
        simp [List.filter_cons, hpred, List.lookup_cons, hbeq, ih]

lemma nodup_keys_filter (pred : String → Bool)
    (l : List (String × FileMonitorState))
    (h : (l.map Prod.fst).Nodup) :
    ((l.filter fun e => pred e.1).map Prod.fst).Nodup :=
  h.sublist (List.Sublist.map Prod.fst (List.filter_sublist l))

/-- C7: rescanning is idempotent on the tracked set — every already-tracked
path that is still present after the scan keeps its exact entry (same `size`,
`last_size_change` and all other fields), key uniqueness is preserved (no
duplicate entries), and any entry that differs from the pre-scan store is a
freshly created `Pending` entry for a path that was not tracked before. -/
theorem C7_rescan_idempotent (fs : FS) (now : ℚ) (dirs : List String)
    (store : List (String × FileMonitorState))
    (hnd : (store.map Prod.fst).Nodup) :
    (∀ p st, List.lookup p store = some st →
      (List.lookup p (scan_directories fs now dirs store).1).isSome = true →
      List.lookup p (scan_directories fs now dirs store).1 = some st) ∧
    ((scan_directories fs now dirs store).1.map Prod.fst).Nodup ∧
    (∀ p st', List.lookup p (scan_directories fs now dirs store).1 = some st' →
      List.lookup p store = some st' ∨
        (List.lookup p store = none ∧
          ∃ sz, fs.getsize p = some sz ∧ st' = FileMonitorState.init p sz now)) := by
  cases dirs with
  | nil =>
    refine ⟨?_, ?_, ?_⟩
    · intro p st h _
      simpa [scan_directories] using h
    · simpa [scan_directories] using hnd
    · intro p st' h
      simp only [scan_directories, List.isEmpty_nil, if_true] at h
      exact Or.inl h
  | cons d rest =>
    obtain ⟨hmono, hnew, hndp⟩ := scanDirsAll_extends fs now (d :: rest) [] store
    have hstore : (scan_directories fs now (d :: rest) store).1 =
        (scanDirsAll fs now (d :: rest) [] store).2.2.filter
          fun e => (scanDirsAll fs now (d :: rest) [] store).2.1.contains e.1 := by
      simp [scan_directories]
    refine ⟨?_, ?_, ?_⟩
    · intro p st h hS
      rw [hstore, lookup_filter_key] at hS ⊢
      by_cases hcont :
          ((scanDirsAll fs now (d :: rest) [] store).2.1.contains p) = true
      · rw [if_pos hcont] at hS ⊢
        rw [hmono p (by rw [h]; rfl)]
        exact h
      · rw [if_neg hcont] at hS
        simp at hS
    · rw [hstore]
      exact nodup_keys_filter _ _ (hndp hnd)
    · intro p st' h
      rw [hstore, lookup_filter_key] at h
      by_cases hcont :
          ((scanDirsAll fs now (d :: rest) [] store).2.1.contains p) = true
      · rw [if_pos hcont] at h
        exact hnew p st' h
      · rw [if_neg hcont] at h
        simp at h

/-- Witness for C7: scanning directory `d` (holding tracked `a.txrm`, new
`b.txrm` and irrelevant `notes.doc`) keeps the tracked entry unchanged and
the key set duplicate-free. -/
theorem C7_rescan_idempotent_witness :
    List.lookup "d/a.txrm" (scan_directories fsW 5 ["d"] storeW).1 = some entryW ∧
    ((scan_directories fsW 5 ["d"] storeW).1.map Prod.fst).Nodup := by
  have h := C7_rescan_idempotent fsW 5 ["d"] storeW (by decide)
  exact ⟨h.1 "d/a.txrm" entryW rfl (by decide), h.2.1⟩

lemma statusRank_le_two (s : FileMonitorState) : statusRank s ≤ 2 := by
  unfold statusRank
  split_ifs <;> omega

lemma statusRank_eq_zero (s : FileMonitorState) (hp : s.is_processing = false)
    (hc : s.is_completed = false) : statusRank s = 0 := by
  simp [statusRank, hp, hc]

lemma tickEntry_rank_mono (fs : FS) (now : ℚ) (st : FileMonitorState) :
    statusRank st ≤ statusRank (tickEntry fs now st).1 := by
  cases hp : st.is_processing
  · cases hc : st.is_completed
    · rw [statusRank_eq_zero st hp hc]
      exact Nat.zero_le _
    · simp [tickEntry, hp, hc]
  · simp [tickEntry, hp]

lemma process_file_update_completed (s : FileMonitorState) (fp : String)
    (env : JobEnv) : (process_file_update s fp env).1.is_completed = true := by
  unfold process_file_update
  cases process_file_body fp env <;> simp

lemma lookup_replaceEntry_self (store : List (String × FileMonitorState))
    (p : String) (v st : FileMonitorState)
    (h : List.lookup p store = some st) :
    List.lookup p (replaceEntry store p v) = some v := by
  induction store with
  | nil => simp at h
  | cons kv rest ih =>
    obtain ⟨q, w⟩ := kv
    by_cases hq : q = p
    · subst hq
      simp [replaceEntry]
    · have hbeq : (p == q) = false := beq_eq_false_iff_ne.mpr (Ne.symm hq)
      simp only [replaceEntry, if_neg hq, List.lookup_cons, hbeq] at h ⊢
      exact ih h

lemma lookup_replaceEntry_ne (store : List (String × FileMonitorState))
    (p : String) (v : FileMonitorState) (q : String) (h : q ≠ p) :
    List.lookup q (replaceEntry store p v) = List.lookup q store := by
  induction store with
  | nil => simp [replaceEntry]
  | cons kv rest ih =>
    obtain ⟨k, w⟩ := kv
    by_cases hk : k = p
    · subst hk
      have hbeq : (q == k) = false := beq_eq_false_iff_ne.mpr h
      simp [replaceEntry, List.lookup_cons, hbeq]
    · by_cases hqk : q = k
      · subst hqk
        simp [replaceEntry, hk, List.lookup_cons]
      · have hbeq : (q == k) = false := beq_eq_false_iff_ne.mpr hqk
        simp [replaceEntry, hk, List.lookup_cons, hbeq, ih]

lemma lookup_tickAll (fs : FS) (now : ℚ)
    (store : List (String × FileMonitorState)) (p : String) :
    List.lookup p (tickAll fs now store).1 =
      (List.lookup p store).map (fun s => (tickEntry fs now s).1) := by
  induction store with
  | nil => simp [tickAll]
  | cons kv rest ih =>
    obtain ⟨q, st⟩ := kv
    by_cases hq : p = q
    · subst hq
      simp [tickAll, List.lookup_cons]
    · have hbeq : (p == q) = false := beq_eq_false_iff_ne.mpr hq
      simp [tickAll, List.lookup_cons, hbeq, ih]

lemma scan_lookup_preserve (fs : FS) (now : ℚ) (dirs : List String)
    (store : List (String × FileMonitorState)) (p : String)
    (st st' : FileMonitorState)
    (h0 : List.lookup p store = some st)
    (h1 : List.lookup p (scan_directories fs now dirs store).1 = some st') :
    st' = st := by
  cases dirs with
  | nil =>
    simp only [scan_directories, List.isEmpty_nil, if_true] at h1
    exact Option.some.inj (h1.symm.trans h0)
  | cons d rest =>
    obtain ⟨hmono, _, _⟩ := scanDirsAll_extends fs now (d :: rest) [] store
    have hstore : (scan_directories fs now (d :: rest) store).1 =
        (scanDirsAll fs now (d :: rest) [] store).2.2.filter
          fun e => (scanDirsAll fs now (d :: rest) [] store).2.1.contains e.1 := by
      simp [scan_directories]
    rw [hstore, lookup_filter_key] at h1
    by_cases hcont :
        ((scanDirsAll fs now (d :: rest) [] store).2.1.contains p) = true
    · rw [if_pos hcont, hmono p (by rw [h0]; rfl), h0] at h1
      exact Option.some.inj h1.symm
    · rw [if_neg hcont] at h1
      simp at h1

lemma self_mem_scanl (x : Monitor) (l : List Step) :
    x ∈ List.scanl applyStep x l := by
  cases l <;> simp [List.scanl]

lemma applyStep_rank_mono (m : Monitor) (s : Step) (p : String)
    (st st' : FileMonitorState)
    (h0 : List.lookup p m.monitored_files = some st)
    (h1 : List.lookup p (applyStep m s).monitored_files = some st') :
    statusRank st ≤ statusRank st' := by
  cases s with
  | setDirectories ds =>
    simp only [applyStep] at h1
    rw [h0] at h1
    exact le_of_eq (congrArg statusRank (Option.some.inj h1))
  | scan fs now =>
    simp only [applyStep] at h1
    rw [scan_lookup_preserve fs now m.directories m.monitored_files p st st' h0 h1]
  | tick fs now =>
    simp only [applyStep] at h1
    rw [lookup_tickAll, h0] at h1
    rw [← Option.some.inj h1]
    exact tickEntry_rank_mono fs now st
  | processNow q =>
    simp only [applyStep] at h1
    unfold process_file_now at h1
    cases hq : List.lookup q m.monitored_files with
    | none =>
      simp only [hq] at h1
      rw [h0] at h1
      exact le_of_eq (congrArg statusRank (Option.some.inj h1))
    | some stq =>
      simp only [hq] at h1
      cases hb : stq.is_processing
      · cases hb2 : stq.is_completed
        · simp only [hb, hb2, Bool.false_eq_true, if_false] at h1
          by_cases hpq : p = q
          · subst hpq
            have hst : st = stq := Option.some.inj (h0.symm.trans hq)
            rw [lookup_replaceEntry_self m.monitored_files p _ stq hq] at h1
            rw [← Option.some.inj h1, hst, statusRank_eq_zero stq hb hb2]
            exact Nat.zero_le _
          · rw [lookup_replaceEntry_ne m.monitored_files q _ p hpq, h0] at h1
            exact le_of_eq (congrArg statusRank (Option.some.inj h1))
        · simp only [hb, hb2, Bool.false_eq_true, if_false, if_true] at h1
          rw [h0] at h1
          exact le_of_eq (congrArg statusRank (Option.some.inj h1))
      · simp only [hb, if_true] at h1
        rw [h0] at h1
        exact le_of_eq (congrArg statusRank (Option.some.inj h1))
  | jobComplete q env =>
    simp only [applyStep] at h1
    cases hj : m.jobs.contains q
    · simp only [hj, Bool.false_eq_true, if_false] at h1
      rw [h0] at h1
      exact le_of_eq (congrArg statusRank (Option.some.inj h1))
    · simp only [hj, if_true] at h1
      unfold completeJob at h1
      cases hq : List.lookup q m.monitored_files with
      | none =>
        simp only [hq] at h1
        rw [h0] at h1
        exact le_of_eq (congrArg statusRank (Option.some.inj h1))
      | some stq =>
        simp only [hq] at h1
        by_cases hpq : p = q
        · subst hpq
          rw [lookup_replaceEntry_self m.monitored_files p _ stq hq] at h1
          rw [← Option.some.inj h1]
          have h2 : statusRank (process_file_update stq p env).1 = 2 := by
            simp [statusRank, process_file_update_completed]
          rw [h2]
          exact statusRank_le_two st
        · rw [lookup_replaceEntry_ne m.monitored_files q _ p hpq, h0] at h1
          exact le_of_eq (congrArg statusRank (Option.some.inj h1))

/-- C2: along any sequence of steps (directory updates, scans, ticks, manual
promotions, job completions) during which a path stays tracked, the entry's
status only moves forward in the order
`Pending (0) → Processing (1) → terminal (2)`: it never returns from
`Processing` to `Pending`, nor from a terminal state to an earlier one. -/
theorem C2_status_monotone (steps : List Step) (m : Monitor) (p : String)
    (st st' : FileMonitorState)
    (hpres : ∀ m' ∈ List.scanl applyStep m steps,
      (List.lookup p m'.monitored_files).isSome = true)
    (h0 : List.lookup p m.monitored_files = some st)
    (h1 : List.lookup p (runSteps m steps).monitored_files = some st') :
    statusRank st ≤ statusRank st' := by
  induction steps generalizing m st with
  | nil =>
    simp only [runSteps, List.foldl_nil] at h1
    rw [h0] at h1
    exact le_of_eq (congrArg statusRank (Option.some.inj h1))
  | cons s rest ih =>
    have hmem : applyStep m s ∈ List.scanl applyStep m (s :: rest) := by
      rw [List.scanl_cons]
      exact List.mem_cons_of_mem _ (self_mem_scanl _ _)
    obtain ⟨st1, hst1⟩ := Option.isSome_iff_exists.mp (hpres (applyStep m s) hmem)
    refine le_trans (applyStep_rank_mono m s p st st1 h0 hst1)
      (ih (applyStep m s) st1 ?_ hst1 ?_)
    · intro m' hm'
      refine hpres m' ?_
      rw [List.scanl_cons]
      exact List.mem_cons_of_mem _ hm'
    · simpa only [runSteps, List.foldl_cons] using h1

/-- Witness for C2: one tick promotes the stable `entry0` from `Pending`
(rank 0) to `Processing` (rank 1). -/
theorem C2_status_monotone_witness :
    statusRank entry0 ≤
      statusRank { entry0 with is_processing := true, status := "Processing" } := by
  have hs : entry0.is_stable 600 = true := by
    rw [is_stable_true_iff, STABILITY_DURATION_eq]
    norm_num [entry0]
  have htick : (tickEntry fsUnchanged 600 entry0).1 =
      { entry0 with is_processing := true, status := "Processing" } := by
    rw [tickEntry_unchanged fsUnchanged 600 entry0 rfl rfl rfl, if_pos hs]
  have hpres : ∀ m' ∈ List.scanl applyStep monitor0 [Step.tick fsUnchanged 600],
      (List.lookup "a.txrm" m'.monitored_files).isSome = true := by
    intro m' hm'
    simp only [List.scanl, List.mem_cons, List.mem_singleton] at hm'
    rcases hm' with rfl | hm'
    · rfl
    · rcases hm' with rfl | hfalse
      · simp only [applyStep]
        rw [lookup_tickAll]
        rfl
      · simp at hfalse
  have h1 : List.lookup "a.txrm"
      (runSteps monitor0 [Step.tick fsUnchanged 600]).monitored_files =
      some { entry0 with is_processing := true, status := "Processing" } := by
    simp only [runSteps, List.foldl_cons, List.foldl_nil, applyStep]
    rw [lookup_tickAll]
    have hlk : List.lookup "a.txrm" monitor0.monitored_files = some entry0 := rfl
    rw [hlk]
    simp [htick]
  exact C2_status_monotone [Step.tick fsUnchanged 600] monitor0 "a.txrm" entry0 _
    hpres rfl h1
